import Mathlib

/-!
Verification of `duplex_wire.c`: capture -> int32 DSP hook -> pack -> playback.

A shallow embedding of `src/duplex_wire.c` and the properties of its sample
codec (`unpack_to_i32`, `pack_from_i32`), its format negotiation
(`set_hw_sw_params`) and its steady-state loop (`main`).

Conventions of the embedding

* The wire buffer `io_buf` is a list of bytes; the typed pointers the C code
  lays over it (`int32_t *`, `int16_t *`) become little-endian loads and
  stores at byte offset `4 * i` resp. `2 * i` (the formats are the `_LE`
  ones and the code uses the host representation).
* The DSP buffer `dsp_buf` is a list of `Int`, every element an `int32_t`
  value.
* An access outside a buffer is undefined behaviour in C; the embedding
  returns `none` there, so `some _` means "ran to completion inside the
  buffers".
* `int32_t` arithmetic is `Int` arithmetic reduced explicitly to the two's
  complement range (`wrap32`, `wrap16`); `>>` on a signed value is the
  arithmetic shift; `size_t` arithmetic is reduced modulo `2 ^ 64`.
-/

namespace DuplexWire

/-! ## Machine integers and bytes -/

/-- One byte of the wire buffer. -/
abbrev Byte := Fin 256

/-- Value of `SND_PCM_FORMAT_S16_LE` in the ALSA enumeration `snd_pcm_format_t`. -/
def SND_PCM_FORMAT_S16_LE : Int := 2

/-- Value of `SND_PCM_FORMAT_S24_LE` in the ALSA enumeration `snd_pcm_format_t`. -/
def SND_PCM_FORMAT_S24_LE : Int := 6

/-- Value of `SND_PCM_FORMAT_S32_LE` in the ALSA enumeration `snd_pcm_format_t`. -/
def SND_PCM_FORMAT_S32_LE : Int := 10

/-- Reduction of an integer to the `int32_t` range (two's complement). -/
def wrap32 (v : Int) : Int := (v + 2147483648) % 4294967296 - 2147483648

/-- Reduction of an integer to the `int16_t` range: the cast `(int16_t)v`. -/
def wrap16 (v : Int) : Int := (v + 32768) % 65536 - 32768

/-- Reduction of a natural number to `size_t` (64 bit). -/
def wrap_size (v : Nat) : Nat := v % 18446744073709551616

/-- The `int32_t` expression `x << k`: the product reduced to 32 bits, which is what the
two's complement targets of the program compute also for a negative or overflowing `x`. -/
def shl32 (x : Int) (k : Nat) : Int := wrap32 (x * 2 ^ k)

/-- The `int32_t` expression `x >> k`: arithmetic shift right. -/
def sar32 (x : Int) (k : Nat) : Int := x >>> k

/-- The four bytes of an `int32_t` in memory, least significant first. -/
def bytes_of_i32 (v : Int) : List Byte :=
  let u := (v % 4294967296).toNat
  [⟨u % 256, Nat.mod_lt _ (by decide)⟩, ⟨u / 256 % 256, Nat.mod_lt _ (by decide)⟩,
   ⟨u / 65536 % 256, Nat.mod_lt _ (by decide)⟩, ⟨u / 16777216 % 256, Nat.mod_lt _ (by decide)⟩]

/-- The two bytes of an `int16_t` in memory, least significant first. -/
def bytes_of_i16 (v : Int) : List Byte :=
  let u := (v % 65536).toNat
  [⟨u % 256, Nat.mod_lt _ (by decide)⟩, ⟨u / 256 % 256, Nat.mod_lt _ (by decide)⟩]

/-- The `int32_t` held by four bytes of memory, least significant first. -/
def i32_of_bytes (b0 b1 b2 b3 : Byte) : Int :=
  wrap32 ((b0.val : Int) + 256 * (b1.val : Int) + 65536 * (b2.val : Int)
    + 16777216 * (b3.val : Int))

/-- The `int16_t` held by two bytes of memory, least significant first. -/
def i16_of_bytes (b0 b1 : Byte) : Int :=
  wrap16 ((b0.val : Int) + 256 * (b1.val : Int))

/-! ## Memory accesses -/

/-- The load `((const int32_t *)m)[i]`. -/
def read_i32 (m : List Byte) (i : Nat) : Option Int :=
  match m.drop (4 * i) with
  | b0 :: b1 :: b2 :: b3 :: _ => some (i32_of_bytes b0 b1 b2 b3)
  | _ => none

/-- The load `((const int16_t *)m)[i]`. -/
def read_i16 (m : List Byte) (i : Nat) : Option Int :=
  match m.drop (2 * i) with
  | b0 :: b1 :: _ => some (i16_of_bytes b0 b1)
  | _ => none

/-- Store of the bytes `bs` at byte offset `off` of `m`. -/
def write_bytes (m : List Byte) (off : Nat) (bs : List Byte) : Option (List Byte) :=
  if off + bs.length ≤ m.length then
    some (m.take off ++ bs ++ m.drop (off + bs.length))
  else none

/-- The store `((int32_t *)m)[i] = v`. -/
def write_i32 (m : List Byte) (i : Nat) (v : Int) : Option (List Byte) :=
  write_bytes m (4 * i) (bytes_of_i32 v)

/-- The store `((int16_t *)m)[i] = v`. -/
def write_i16 (m : List Byte) (i : Nat) (v : Int) : Option (List Byte) :=
  write_bytes m (2 * i) (bytes_of_i16 v)

/-- The load `a[i]` from an `int32_t` array. -/
def read_elem (a : List Int) (i : Nat) : Option Int := a[i]?

/-- The store `a[i] = v` into an `int32_t` array. -/
def write_elem (a : List Int) (i : Nat) (v : Int) : Option (List Int) :=
  if i < a.length then some (a.set i v) else none

/-- The call `memset((char *)m + off, 0, len)`. -/
def memset_zero (m : List Byte) (off len : Nat) : Option (List Byte) :=
  write_bytes m off (List.replicate len 0)

/-- The loop `for (size_t i = 0; i < n; i++) body`, run on the state `s`. -/
def for_loop {σ : Type} (n : Nat) (body : Nat → σ → Option σ) (s : σ) : Option σ :=
  match n with
  | 0 => some s
  | k + 1 => (for_loop k body s).bind (body k)

/-! ## Sample conversion helpers -/

/-- The function `unpack_to_i32(in, out, fmt, samples)`; the result is `out`. -/
def unpack_to_i32 (inp : List Byte) (out : List Int) (fmt : Int) (samples : Nat) :
    Option (List Int) :=
  if fmt = SND_PCM_FORMAT_S32_LE then
    for_loop samples (fun i out => (read_i32 inp i).bind (fun p => write_elem out i p)) out
  else if fmt = SND_PCM_FORMAT_S16_LE then
    for_loop samples
      (fun i out => (read_i16 inp i).bind (fun p => write_elem out i (shl32 p 16))) out
  else if fmt = SND_PCM_FORMAT_S24_LE then
    for_loop samples
      (fun i out => (read_i32 inp i).bind (fun p =>
        let v := shl32 p 8
        write_elem out i (sar32 v 8))) out
  else some out

/-- The function `pack_from_i32(in, out, fmt, samples)`; the result is `out`. -/
def pack_from_i32 (inp : List Int) (out : List Byte) (fmt : Int) (samples : Nat) :
    Option (List Byte) :=
  if fmt = SND_PCM_FORMAT_S32_LE then
    for_loop samples (fun i q => (read_elem inp i).bind (fun x => write_i32 q i x)) out
  else if fmt = SND_PCM_FORMAT_S16_LE then
    for_loop samples
      (fun i q => (read_elem inp i).bind (fun x => write_i16 q i (wrap16 (sar32 x 16)))) out
  else if fmt = SND_PCM_FORMAT_S24_LE then
    for_loop samples
      (fun i q => (read_elem inp i).bind (fun x =>
        let v := sar32 (shl32 x 8) 8
        write_i32 q i v)) out
  else some out

/-- The function `dsp_process_int32(samples, n, channels)`: the shipped body is empty. -/
def dsp_process_int32 (samples : List Int) (_n : Nat) (_channels : Nat) : List Int := samples

/-! ## Format negotiation (`set_hw_sw_params`, the block on `s->format`) -/

/-- Return value of `snd_pcm_hw_params_set_format` on a device that accepts exactly the
formats `accepts`: `0` on success, `-EINVAL` on rejection (the parameter space is left as it
was). -/
def snd_pcm_hw_params_set_format (accepts : Int → Bool) (format : Int) : Int :=
  if accepts format then 0 else -22

/-- Outcome of a setup step: the negotiated value, or `exit(status)`. -/
inductive SetupResult where
  | negotiated (format : Int)
  | exit (status : Nat)
  deriving DecidableEq, Repr

/-- The format block of `set_hw_sw_params(s)`: the value of `s->format` afterwards, or the
`exit(1)` after "No supported format.". -/
def set_hw_sw_params_format (accepts : Int → Bool) (format : Int) : SetupResult :=
  if snd_pcm_hw_params_set_format accepts format < 0 then
    if snd_pcm_hw_params_set_format accepts SND_PCM_FORMAT_S32_LE = 0 then
      SetupResult.negotiated SND_PCM_FORMAT_S32_LE
    else if snd_pcm_hw_params_set_format accepts SND_PCM_FORMAT_S16_LE = 0 then
      SetupResult.negotiated SND_PCM_FORMAT_S16_LE
    else
      SetupResult.exit 1
  else
    SetupResult.negotiated format

/-- The fallback the specification describes: the first accepted format in the order
32-bit, 24-bit-in-32, 16-bit, skipping the format that was already rejected. -/
def spec_fallback (accepts : Int → Bool) (requested : Int) : SetupResult :=
  match ([SND_PCM_FORMAT_S32_LE, SND_PCM_FORMAT_S24_LE, SND_PCM_FORMAT_S16_LE].filter
      (fun f => decide (f ≠ requested))).find? accepts with
  | some f => SetupResult.negotiated f
  | none => SetupResult.exit 1

/-! ## The steady-state loop of `main` -/

/-- The fields of `pcm_side_t` that `main` uses after negotiation. -/
structure pcm_side_t where
  rate : Nat
  format : Int
  channels : Nat
  period : Nat
  periods : Nat
  deriving DecidableEq, Repr

/-- The errno value `EPIPE`. -/
def EPIPE : Int := 32

/-- The errno value `ESTRPIPE`. -/
def ESTRPIPE : Int := 86

/-- The local `bytes_per_sample` of `main`. -/
def bytes_per_sample (format : Int) : Nat :=
  if format = SND_PCM_FORMAT_S16_LE then 2
  else if format = SND_PCM_FORMAT_S24_LE then 4 else 4

/-- The local `samples` of `main`: `(size_t)frames * cap.channels`. -/
def main_samples (cap : pcm_side_t) : Nat := wrap_size (cap.period * cap.channels)

/-- The local `buf_bytes` of `main`: `samples * bytes_per_sample`, the size of `io_buf`. -/
def main_buf_bytes (cap : pcm_side_t) : Nat :=
  wrap_size (main_samples cap * bytes_per_sample cap.format)

/-- The zero padding of a short read of `r` frames out of `frames`:
`memset((char*)io_buf + r * bytes_per_sample * channels, 0, want * bytes_per_sample * channels)`
with `want = frames - r`. -/
def zero_pad (io_buf : List Byte) (r frames bps channels : Nat) : Option (List Byte) :=
  let want := wrap_size (frames - r)
  memset_zero io_buf (wrap_size (wrap_size (r * bps) * channels))
    (wrap_size (wrap_size (want * bps) * channels))

/-- The conversion chain of one iteration (lines 252-259): `unpack_to_i32` with the capture
format, `dsp_process_int32`, `pack_from_i32` with the playback format. The result is the pair
of `io_buf` and `dsp_buf` afterwards. -/
def convert_chain (cap play : pcm_side_t) (io_buf : List Byte) (dsp_buf : List Int) :
    Option (List Byte × List Int) :=
  let samples := main_samples cap
  (unpack_to_i32 io_buf dsp_buf cap.format samples).bind (fun d1 =>
    let d2 := dsp_process_int32 d1 samples cap.channels
    (pack_from_i32 d2 io_buf play.format samples).bind (fun io2 => some (io2, d2)))

/-- What the loop does to the outside world, in order. -/
inductive Event where
  | readi (r : Int)
  | cap_recover (e r : Int)
  | writei (buf : List Byte) (w : Int)
  | play_recover (e w : Int)
  | close_cap
  | close_play
  | exit (status : Int)
  deriving DecidableEq, Repr

/-- The blocking call the loop is about to make, or how the program ended. `undefined` is
reached by an access outside a buffer. -/
inductive PC where
  | at_readi
  | at_cap_recover (e : Int)
  | at_writei
  | at_play_recover (e : Int)
  | exited (status : Int)
  | undefined
  deriving DecidableEq, Repr

/-- State of `main` inside `for (;;)`. -/
structure LoopState where
  pc : PC
  io_buf : List Byte
  dsp_buf : List Int
  trace : List Event
  deriving DecidableEq, Repr

/-- Answer of the device to one blocking call: the return value and, for a read, the bytes
the device stored at the start of `io_buf`. -/
structure Resp where
  ret : Int
  data : List Byte
  deriving DecidableEq, Repr

/-- The buffer after the device stored `data` at its start. -/
def deposit (io_buf data : List Byte) : List Byte :=
  data.take io_buf.length ++ io_buf.drop data.length

/-- The code after the loop (lines 272-276): close both endpoints, free, `return 0`. -/
def main_after_loop (st : LoopState) : LoopState :=
  { st with pc := PC.exited 0,
            trace := st.trace ++ [Event.close_cap, Event.close_play, Event.exit 0] }

/-- One blocking call of the loop of `main` (lines 236-270) and the code up to the next one. -/
def main_loop_step (cap play : pcm_side_t) (st : LoopState) (resp : Resp) : LoopState :=
  let frames := cap.period
  let bps := bytes_per_sample cap.format
  match st.pc with
  | PC.at_readi =>
    let r := resp.ret
    let st1 := { st with io_buf := deposit st.io_buf resp.data,
                         trace := st.trace ++ [Event.readi r] }
    if r < 0 then
      let e := wrap32 r
      if e = -EPIPE ∨ e = -ESTRPIPE then { st1 with pc := PC.at_cap_recover e }
      else main_after_loop st1
    else
      let padded :=
        if r.toNat < frames then zero_pad st1.io_buf r.toNat frames bps cap.channels
        else some st1.io_buf
      match padded.bind (fun io1 => convert_chain cap play io1 st1.dsp_buf) with
      | some (io2, d2) => { st1 with pc := PC.at_writei, io_buf := io2, dsp_buf := d2 }
      | none => { st1 with pc := PC.undefined }
  | PC.at_cap_recover e =>
    let r := resp.ret
    let st1 := { st with trace := st.trace ++ [Event.cap_recover e r] }
    if r < 0 then main_after_loop st1 else { st1 with pc := PC.at_readi }
  | PC.at_writei =>
    let w := resp.ret
    let st1 := { st with trace := st.trace ++ [Event.writei st.io_buf w] }
    if w < 0 then
      let e := wrap32 w
      if e = -EPIPE ∨ e = -ESTRPIPE then { st1 with pc := PC.at_play_recover e }
      else main_after_loop st1
    else { st1 with pc := PC.at_readi }
  | PC.at_play_recover e =>
    let w := resp.ret
    let st1 := { st with trace := st.trace ++ [Event.play_recover e w] }
    if w < 0 then main_after_loop st1 else { st1 with pc := PC.at_readi }
  | PC.exited _ => st
  | PC.undefined => st

/-- The loop run against a sequence of device answers. -/
def main_loop (cap play : pcm_side_t) (st : LoopState) (resps : List Resp) : LoopState :=
  resps.foldl (main_loop_step cap play) st

/-- The 24-bit-in-32 buffer in which the top byte of every 4-byte container is the sign
extension of bit 23 and the low three bytes are kept. -/
def sign_extend24_bytes : List Byte → List Byte
  | b0 :: b1 :: b2 :: _ :: rest =>
    b0 :: b1 :: b2 :: (if 128 ≤ b2.val then 255 else 0) :: sign_extend24_bytes rest
  | rest => rest

/-- The `int32_t` elements of a byte buffer, in order (`((int32_t *)m)[0]`, `[1]`, ...). -/
def words32 : List Byte → List Int
  | b0 :: b1 :: b2 :: b3 :: rest => i32_of_bytes b0 b1 b2 b3 :: words32 rest
  | _ => []

/-- The `int16_t` elements of a byte buffer, in order. -/
def words16 : List Byte → List Int
  | b0 :: b1 :: rest => i16_of_bytes b0 b1 :: words16 rest
  | _ => []

/-- The value `x` with its low `k` bits cleared: the largest multiple of `2 ^ k` that is
at most `x`. -/
def clear_low_bits (k : Nat) (x : Int) : Int := x - x % 2 ^ k

/-- The low 24 bits of `x` read as a signed 24-bit number. -/
def sign_extend24 (x : Int) : Int := (x + 8388608) % 16777216 - 8388608

/-! ## Arithmetic of the codec -/

theorem sar32_eq_div (x : Int) (k : Nat) : sar32 x k = x / 2 ^ k := by
  unfold sar32
  rw [Int.shiftRight_eq_div_pow]
  norm_cast

theorem wrap32_of_range (x : Int) (h1 : -2147483648 ≤ x) (h2 : x < 2147483648) :
    wrap32 x = x := by
  unfold wrap32; omega

theorem wrap32_range (x : Int) : -2147483648 ≤ wrap32 x ∧ wrap32 x < 2147483648 := by
  unfold wrap32; omega

theorem i32_of_bytes_of_i32 (v : Int) :
    ∃ b0 b1 b2 b3, bytes_of_i32 v = [b0, b1, b2, b3] ∧ i32_of_bytes b0 b1 b2 b3 = wrap32 v := by
  refine ⟨_, _, _, _, rfl, ?_⟩
  simp only [i32_of_bytes, wrap32]
  omega

theorem i16_of_bytes_of_i16 (v : Int) :
    ∃ b0 b1, bytes_of_i16 v = [b0, b1] ∧ i16_of_bytes b0 b1 = wrap16 v := by
  refine ⟨_, _, rfl, ?_⟩
  simp only [i16_of_bytes, wrap16]
  omega

theorem bytes_of_i32_of_bytes (b0 b1 b2 b3 : Byte) :
    bytes_of_i32 (i32_of_bytes b0 b1 b2 b3) = [b0, b1, b2, b3] := by
  simp only [bytes_of_i32, i32_of_bytes, wrap32, List.cons.injEq, and_true]
  refine ⟨?_, ?_, ?_, ?_⟩ <;> apply Fin.ext <;> simp only <;> omega

theorem bytes_of_i16_of_bytes (b0 b1 : Byte) :
    bytes_of_i16 (i16_of_bytes b0 b1) = [b0, b1] := by
  simp only [bytes_of_i16, i16_of_bytes, wrap16, List.cons.injEq, and_true]
  refine ⟨?_, ?_⟩ <;> apply Fin.ext <;> simp only <;> omega

theorem wrap16_range (x : Int) : -32768 ≤ wrap16 x ∧ wrap16 x < 32768 := by
  unfold wrap16; omega

theorem sar16_fits (x : Int) (h1 : -2147483648 ≤ x) (h2 : x < 2147483648) :
    wrap16 (sar32 x 16) = sar32 x 16 := by
  rw [sar32_eq_div]
  unfold wrap16
  norm_num
  omega

theorem s16_sample_round_trip (x : Int) (h1 : -2147483648 ≤ x) (h2 : x < 2147483648) :
    shl32 (wrap16 (sar32 x 16)) 16 = clear_low_bits 16 x := by
  rw [sar16_fits x h1 h2, sar32_eq_div]
  unfold shl32 wrap32 clear_low_bits
  norm_num
  omega

theorem s16_wire_round_trip (p : Int) (h1 : -32768 ≤ p) (h2 : p < 32768) :
    wrap16 (sar32 (shl32 p 16) 16) = p := by
  rw [sar32_eq_div]
  unfold shl32 wrap32 wrap16
  norm_num
  omega

theorem sar_shl_8 (x : Int) : sar32 (shl32 x 8) 8 = sign_extend24 x := by
  rw [sar32_eq_div]
  unfold shl32 wrap32 sign_extend24
  norm_num
  omega

theorem sign_extend24_idem (x : Int) : sign_extend24 (sign_extend24 x) = sign_extend24 x := by
  unfold sign_extend24; omega

theorem sign_extend24_of_range (x : Int) (h1 : -8388608 ≤ x) (h2 : x < 8388608) :
    sign_extend24 x = x := by
  unfold sign_extend24; omega

theorem bytes_of_sign_extend24 (b0 b1 b2 b3 : Byte) :
    bytes_of_i32 (sign_extend24 (i32_of_bytes b0 b1 b2 b3))
      = [b0, b1, b2, if 128 ≤ b2.val then 255 else 0] := by
  simp only [bytes_of_i32, i32_of_bytes, wrap32, sign_extend24, List.cons.injEq, and_true]
  refine ⟨?_, ?_, ?_, ?_⟩ <;> apply Fin.ext
  · simp only; omega
  · simp only; omega
  · simp only; omega
  · by_cases h : 128 ≤ b2.val
    · simp only [h, if_true]
      show _ = 255
      omega
    · simp only [h, if_false]
      show _ = 0
      omega

/-! ## The loops -/

theorem for_loop_succ {σ : Type} (n : Nat) (body : Nat → σ → Option σ) (s : σ) :
    for_loop (n + 1) body s = (for_loop n body s).bind (body n) := rfl

/-- A loop that stores `T (w i)` into element `i` for `i < n` rewrites the first `n`
elements and keeps the rest. -/
theorem for_loop_write_elem (F : Nat → Option Int) (T : Int → Int) (w : Nat → Int) (n : Nat)
    (out : List Int) (hF : ∀ i, i < n → F i = some (w i)) (hn : n ≤ out.length) :
    for_loop n (fun i o => (F i).bind (fun p => write_elem o i (T p))) out
      = some ((List.range n).map (fun i => T (w i)) ++ out.drop n) := by
  induction n with
  | zero => simp [for_loop]
  | succ k ih =>
    rw [for_loop_succ, ih (fun i hi => hF i (by omega)) (by omega)]
    have hk : k < out.length := by omega
    simp only [Option.bind_some, hF k (by omega), Option.some_bind]
    unfold write_elem
    rw [if_pos (by simp; omega)]
    congr 1
    rw [List.set_append]
    simp only [List.length_map, List.length_range, lt_self_iff_false, if_false, Nat.sub_self]
    rw [List.drop_eq_getElem_cons hk, List.set_cons_zero, List.range_succ, List.map_append]
    simp only [List.map_cons, List.map_nil, List.append_assoc, List.singleton_append]

/-- A loop that stores the `w`-byte block `E (x i)` at offset `w * i` for `i < n` rewrites
the first `w * n` bytes and keeps the rest. -/
theorem for_loop_write_bytes (w : Nat) (F : Nat → Option Int) (E : Int → List Byte)
    (x : Nat → Int) (n : Nat) (m : List Byte) (hF : ∀ i, i < n → F i = some (x i))
    (hE : ∀ v, (E v).length = w) (hm : w * n ≤ m.length) :
    for_loop n (fun i q => (F i).bind (fun v => write_bytes q (w * i) (E v))) m
      = some (((List.range n).map (fun i => E (x i))).flatten ++ m.drop (w * n)) := by
  induction n with
  | zero => simp [for_loop]
  | succ k ih =>
    have hk : w * k + w ≤ m.length := by
      have : w * (k + 1) = w * k + w := by ring
      omega
    rw [for_loop_succ, ih (fun i hi => hF i (by omega)) (by omega)]
    have hlen : (((List.range k).map (fun i => E (x i))).flatten).length = w * k := by
      clear ih hF hm hk
      induction k with
      | zero => simp
      | succ j ihj =>
        rw [List.range_succ, List.map_append, List.flatten_append, List.length_append, ihj]
        simp [hE]
        ring
    have hEk := hE (x k)
    simp only [Option.bind_some, hF k (by omega), Option.some_bind]
    unfold write_bytes
    rw [if_pos (by simp only [List.length_append, hlen, List.length_drop, hE]; omega)]
    congr 1
    rw [List.take_append_of_le_length (by omega), List.take_of_length_le (by omega),
      List.drop_append_eq_append_drop, List.drop_of_length_le (by omega), List.drop_drop,
      List.range_succ, List.map_append, List.flatten_append]
    have harith : w * k + (w * k + (E (x k)).length - w * k) = w * (k + 1) := by
      rw [hEk]
      have : w * (k + 1) = w * k + w := by ring
      omega
    simp only [List.nil_append, List.map_cons, List.map_nil, List.flatten_cons, List.flatten_nil,
      List.append_nil, List.append_assoc, hlen, harith]

theorem read_i32_cons4 (b0 b1 b2 b3 : Byte) (rest : List Byte) (i : Nat) :
    read_i32 (b0 :: b1 :: b2 :: b3 :: rest) (i + 1) = read_i32 rest i := by
  unfold read_i32
  have : 4 * (i + 1) = 4 * i + 1 + 1 + 1 + 1 := by ring
  rw [this]
  simp only [List.drop_succ_cons]

theorem read_i16_cons2 (b0 b1 : Byte) (rest : List Byte) (i : Nat) :
    read_i16 (b0 :: b1 :: rest) (i + 1) = read_i16 rest i := by
  unfold read_i16
  have : 2 * (i + 1) = 2 * i + 1 + 1 := by ring
  rw [this]
  simp only [List.drop_succ_cons]

theorem words32_cons4 (b0 b1 b2 b3 : Byte) (rest : List Byte) :
    words32 (b0 :: b1 :: b2 :: b3 :: rest) = i32_of_bytes b0 b1 b2 b3 :: words32 rest := by
  rw [words32]

theorem words16_cons2 (b0 b1 : Byte) (rest : List Byte) :
    words16 (b0 :: b1 :: rest) = i16_of_bytes b0 b1 :: words16 rest := by
  rw [words16]

theorem read_i32_zero (b0 b1 b2 b3 : Byte) (rest : List Byte) :
    read_i32 (b0 :: b1 :: b2 :: b3 :: rest) 0 = some (i32_of_bytes b0 b1 b2 b3) := by
  simp only [read_i32, Nat.mul_zero, List.drop_zero]

theorem read_i16_zero (b0 b1 : Byte) (rest : List Byte) :
    read_i16 (b0 :: b1 :: rest) 0 = some (i16_of_bytes b0 b1) := by
  simp only [read_i16, Nat.mul_zero, List.drop_zero]

theorem split_words32 (k : Nat) (m : List Byte) (hm : m.length = 4 * (k + 1)) :
    ∃ b0 b1 b2 b3 rest, m = b0 :: b1 :: b2 :: b3 :: rest ∧ rest.length = 4 * k := by
  match m, hm with
  | b0 :: b1 :: b2 :: b3 :: rest, hm =>
    refine ⟨b0, b1, b2, b3, rest, rfl, ?_⟩
    simp only [List.length_cons] at hm
    omega
  | [], hm => simp only [List.length_nil] at hm; omega
  | [_], hm => simp only [List.length_cons, List.length_nil] at hm; omega
  | [_, _], hm => simp only [List.length_cons, List.length_nil] at hm; omega
  | [_, _, _], hm => simp only [List.length_cons, List.length_nil] at hm; omega

theorem split_words16 (k : Nat) (m : List Byte) (hm : m.length = 2 * (k + 1)) :
    ∃ b0 b1 rest, m = b0 :: b1 :: rest ∧ rest.length = 2 * k := by
  match m, hm with
  | b0 :: b1 :: rest, hm =>
    refine ⟨b0, b1, rest, rfl, ?_⟩
    simp only [List.length_cons] at hm
    omega
  | [], hm => simp only [List.length_nil] at hm; omega
  | [_], hm => simp only [List.length_cons, List.length_nil] at hm; omega

/-- Inside a buffer of `4 * n` bytes every `int32_t` load below `n` succeeds, and the loads
taken in order are `words32`. -/
theorem read_i32_words32 (n : Nat) (m : List Byte) (hm : m.length = 4 * n) :
    (∀ i, i < n → read_i32 m i = some ((read_i32 m i).getD 0))
      ∧ (List.range n).map (fun i => (read_i32 m i).getD 0) = words32 m := by
  induction n generalizing m with
  | zero =>
    have : m = [] := List.length_eq_zero.mp (by omega)
    subst this
    exact ⟨fun i hi => absurd hi (Nat.not_lt_zero i), rfl⟩
  | succ k ih =>
    obtain ⟨b0, b1, b2, b3, rest, rfl, hrest⟩ := split_words32 k m hm
    obtain ⟨h1, h2⟩ := ih rest hrest
    constructor
    · intro i hi
      cases i with
      | zero => rw [read_i32_zero, Option.getD_some]
      | succ j =>
        rw [read_i32_cons4]
        exact h1 j (by omega)
    · rw [List.range_succ_eq_map, List.map_cons, List.map_map, read_i32_zero, Option.getD_some,
        words32_cons4, ← h2]
      congr 1

/-- Inside a buffer of `2 * n` bytes every `int16_t` load below `n` succeeds, and the loads
taken in order are `words16`. -/
theorem read_i16_words16 (n : Nat) (m : List Byte) (hm : m.length = 2 * n) :
    (∀ i, i < n → read_i16 m i = some ((read_i16 m i).getD 0))
      ∧ (List.range n).map (fun i => (read_i16 m i).getD 0) = words16 m := by
  induction n generalizing m with
  | zero =>
    have : m = [] := List.length_eq_zero.mp (by omega)
    subst this
    exact ⟨fun i hi => absurd hi (Nat.not_lt_zero i), rfl⟩
  | succ k ih =>
    obtain ⟨b0, b1, rest, rfl, hrest⟩ := split_words16 k m hm
    obtain ⟨h1, h2⟩ := ih rest hrest
    constructor
    · intro i hi
      cases i with
      | zero => rw [read_i16_zero, Option.getD_some]
      | succ j =>
        rw [read_i16_cons2]
        exact h1 j (by omega)
    · rw [List.range_succ_eq_map, List.map_cons, List.map_map, read_i16_zero, Option.getD_some,
        words16_cons2, ← h2]
      congr 1

/-- The loads `a[0]`, ..., `a[n-1]` of an array of `n` elements succeed and are its elements
in order. -/
theorem read_elem_all (a : List Int) :
    (∀ i, i < a.length → read_elem a i = some ((read_elem a i).getD 0))
      ∧ (List.range a.length).map (fun i => (read_elem a i).getD 0) = a := by
  constructor
  · intro i hi
    unfold read_elem
    rw [List.getElem?_eq_getElem hi]
    rfl
  · apply List.ext_getElem
    · simp
    · intro i h1 h2
      simp only [List.getElem_map, List.getElem_range, read_elem]
      rw [List.getElem?_eq_getElem h2]
      rfl

/-! ## What the two conversions compute on buffers of the right size -/

theorem unpack_loop32 (T : Int → Int) (n : Nat) (m : List Byte) (out : List Int)
    (hm : m.length = 4 * n) (ho : out.length = n) :
    for_loop n (fun i o => (read_i32 m i).bind (fun p => write_elem o i (T p))) out
      = some ((words32 m).map T) := by
  obtain ⟨h1, h2⟩ := read_i32_words32 n m hm
  rw [for_loop_write_elem (fun i => read_i32 m i) T (fun i => (read_i32 m i).getD 0) n out h1
    (by omega)]
  rw [List.drop_of_length_le (by omega), List.append_nil, ← h2, List.map_map]
  rfl

theorem unpack_loop16 (T : Int → Int) (n : Nat) (m : List Byte) (out : List Int)
    (hm : m.length = 2 * n) (ho : out.length = n) :
    for_loop n (fun i o => (read_i16 m i).bind (fun p => write_elem o i (T p))) out
      = some ((words16 m).map T) := by
  obtain ⟨h1, h2⟩ := read_i16_words16 n m hm
  rw [for_loop_write_elem (fun i => read_i16 m i) T (fun i => (read_i16 m i).getD 0) n out h1
    (by omega)]
  rw [List.drop_of_length_le (by omega), List.append_nil, ← h2, List.map_map]
  rfl

theorem pack_loop (w : Nat) (E : Int → List Byte) (hE : ∀ v, (E v).length = w) (xs : List Int)
    (q : List Byte) (hq : q.length = w * xs.length) :
    for_loop xs.length (fun i q => (read_elem xs i).bind (fun v => write_bytes q (w * i) (E v))) q
      = some ((xs.map E).flatten) := by
  obtain ⟨h1, h2⟩ := read_elem_all xs
  rw [for_loop_write_bytes w (fun i => read_elem xs i) E (fun i => (read_elem xs i).getD 0)
    xs.length q h1 hE (by omega)]
  rw [List.drop_of_length_le (by omega), List.append_nil]
  congr 2
  conv_rhs => rw [← h2]
  rw [List.map_map]
  rfl

theorem unpack_S32 (m : List Byte) (out : List Int) (n : Nat)
    (hm : m.length = 4 * n) (ho : out.length = n) :
    unpack_to_i32 m out SND_PCM_FORMAT_S32_LE n = some (words32 m) := by
  unfold unpack_to_i32
  rw [if_pos rfl]
  refine (unpack_loop32 id n m out hm ho).trans ?_
  rw [List.map_id]

theorem unpack_S16 (m : List Byte) (out : List Int) (n : Nat)
    (hm : m.length = 2 * n) (ho : out.length = n) :
    unpack_to_i32 m out SND_PCM_FORMAT_S16_LE n
      = some ((words16 m).map (fun p => shl32 p 16)) := by
  unfold unpack_to_i32
  rw [if_neg (by decide), if_pos rfl]
  exact unpack_loop16 (fun p => shl32 p 16) n m out hm ho

theorem unpack_S24 (m : List Byte) (out : List Int) (n : Nat)
    (hm : m.length = 4 * n) (ho : out.length = n) :
    unpack_to_i32 m out SND_PCM_FORMAT_S24_LE n
      = some ((words32 m).map sign_extend24) := by
  unfold unpack_to_i32
  rw [if_neg (by decide), if_neg (by decide), if_pos rfl]
  refine (unpack_loop32 (fun p => sar32 (shl32 p 8) 8) n m out hm ho).trans ?_
  congr 1
  apply List.map_congr_left
  intro p _
  exact sar_shl_8 p

theorem pack_S32 (xs : List Int) (q : List Byte) (hq : q.length = 4 * xs.length) :
    pack_from_i32 xs q SND_PCM_FORMAT_S32_LE xs.length
      = some ((xs.map bytes_of_i32).flatten) := by
  unfold pack_from_i32
  rw [if_pos rfl]
  exact pack_loop 4 bytes_of_i32 (fun _ => rfl) xs q hq

theorem pack_S16 (xs : List Int) (q : List Byte) (hq : q.length = 2 * xs.length) :
    pack_from_i32 xs q SND_PCM_FORMAT_S16_LE xs.length
      = some ((xs.map (fun x => bytes_of_i16 (wrap16 (sar32 x 16)))).flatten) := by
  unfold pack_from_i32
  rw [if_neg (by decide), if_pos rfl]
  exact pack_loop 2 (fun x => bytes_of_i16 (wrap16 (sar32 x 16))) (fun _ => rfl) xs q hq

theorem pack_S24 (xs : List Int) (q : List Byte) (hq : q.length = 4 * xs.length) :
    pack_from_i32 xs q SND_PCM_FORMAT_S24_LE xs.length
      = some ((xs.map (fun x => bytes_of_i32 (sign_extend24 x))).flatten) := by
  unfold pack_from_i32
  rw [if_neg (by decide), if_neg (by decide), if_pos rfl]
  refine (pack_loop 4 (fun x => bytes_of_i32 (sar32 (shl32 x 8) 8)) (fun _ => rfl) xs q hq).trans ?_
  congr 2
  apply List.map_congr_left
  intro x _
  show bytes_of_i32 (sar32 (shl32 x 8) 8) = _
  rw [sar_shl_8]

/-! ## Round trips on whole buffers -/

theorem length_flatten_blocks (w : Nat) (E : Int → List Byte) (hE : ∀ v, (E v).length = w)
    (xs : List Int) : ((xs.map E).flatten).length = w * xs.length := by
  induction xs with
  | nil => simp
  | cons x xs ih =>
    simp only [List.map_cons, List.flatten_cons, List.length_append, List.length_cons, ih, hE]
    ring

theorem words32_blocks (g : Int → Int) (xs : List Int) :
    words32 ((xs.map (fun x => bytes_of_i32 (g x))).flatten) = xs.map (fun x => wrap32 (g x)) := by
  induction xs with
  | nil => rfl
  | cons x xs ih =>
    obtain ⟨b0, b1, b2, b3, hb, hv⟩ := i32_of_bytes_of_i32 (g x)
    rw [List.map_cons, List.flatten_cons, hb, List.map_cons]
    show words32 (b0 :: b1 :: b2 :: b3 :: (xs.map (fun x => bytes_of_i32 (g x))).flatten) = _
    rw [words32_cons4, hv, ih]

theorem words16_blocks (g : Int → Int) (xs : List Int) :
    words16 ((xs.map (fun x => bytes_of_i16 (g x))).flatten) = xs.map (fun x => wrap16 (g x)) := by
  induction xs with
  | nil => rfl
  | cons x xs ih =>
    obtain ⟨b0, b1, hb, hv⟩ := i16_of_bytes_of_i16 (g x)
    rw [List.map_cons, List.flatten_cons, hb, List.map_cons]
    show words16 (b0 :: b1 :: (xs.map (fun x => bytes_of_i16 (g x))).flatten) = _
    rw [words16_cons2, hv, ih]

theorem length_words32 (n : Nat) (m : List Byte) (hm : m.length = 4 * n) :
    (words32 m).length = n := by
  rw [← (read_i32_words32 n m hm).2]
  simp

theorem length_words16 (n : Nat) (m : List Byte) (hm : m.length = 2 * n) :
    (words16 m).length = n := by
  rw [← (read_i16_words16 n m hm).2]
  simp

theorem i16_of_bytes_range (b0 b1 : Byte) :
    -32768 ≤ i16_of_bytes b0 b1 ∧ i16_of_bytes b0 b1 < 32768 := wrap16_range _

/-- Storing back the `int32_t` elements of a buffer of whole words gives the buffer. -/
theorem blocks_words32 (n : Nat) (m : List Byte) (hm : m.length = 4 * n) :
    ((words32 m).map bytes_of_i32).flatten = m := by
  induction n generalizing m with
  | zero =>
    have : m = [] := List.length_eq_zero.mp (by omega)
    subst this
    rfl
  | succ k ih =>
    obtain ⟨b0, b1, b2, b3, rest, rfl, hrest⟩ := split_words32 k m hm
    rw [words32_cons4, List.map_cons, List.flatten_cons, bytes_of_i32_of_bytes, ih rest hrest]
    rfl

/-- Decoding 24-bit-in-32 words and storing them back sign-extends every container. -/
theorem blocks_words32_s24 (n : Nat) (m : List Byte) (hm : m.length = 4 * n) :
    (((words32 m).map sign_extend24).map (fun x => bytes_of_i32 (sign_extend24 x))).flatten
      = sign_extend24_bytes m := by
  induction n generalizing m with
  | zero =>
    have : m = [] := List.length_eq_zero.mp (by omega)
    subst this
    rfl
  | succ k ih =>
    obtain ⟨b0, b1, b2, b3, rest, rfl, hrest⟩ := split_words32 k m hm
    rw [words32_cons4, List.map_cons, List.map_cons, List.flatten_cons, sign_extend24_idem,
      bytes_of_sign_extend24, ih rest hrest, sign_extend24_bytes]
    rfl

/-- Decoding 16-bit words and storing them back gives the buffer. -/
theorem blocks_words16 (n : Nat) (m : List Byte) (hm : m.length = 2 * n) :
    (((words16 m).map (fun p => shl32 p 16)).map
        (fun x => bytes_of_i16 (wrap16 (sar32 x 16)))).flatten = m := by
  induction n generalizing m with
  | zero =>
    have : m = [] := List.length_eq_zero.mp (by omega)
    subst this
    rfl
  | succ k ih =>
    obtain ⟨b0, b1, rest, rfl, hrest⟩ := split_words16 k m hm
    have hr := i16_of_bytes_range b0 b1
    rw [words16_cons2, List.map_cons, List.map_cons, List.flatten_cons, ih rest hrest]
    show bytes_of_i16 (wrap16 (sar32 (shl32 (i16_of_bytes b0 b1) 16) 16)) ++ rest = _
    rw [s16_wire_round_trip _ hr.1 hr.2, bytes_of_i16_of_bytes]
    rfl

/-! ## The sample codec: encode then decode -/

/-- C1: for canonical samples `xs` that are `int32_t` values, `pack_from_i32` followed by
`unpack_to_i32` in the same format runs inside the buffers and returns `xs` itself for
`S32_LE`, and every `x` with its low 16 bits cleared for `S16_LE` (a multiple of `2 ^ 16` with
the same top 16 bits, sign included); the 16-bit store never wraps, since `x >> 16` is an
`int16_t` value. -/
theorem C1_encode_decode_s32_s16 (fmt : Int) (xs : List Int) (io : List Byte) (out : List Int)
    (hfmt : fmt = SND_PCM_FORMAT_S32_LE ∨ fmt = SND_PCM_FORMAT_S16_LE)
    (hx : ∀ x ∈ xs, -2147483648 ≤ x ∧ x < 2147483648)
    (hio : io.length = bytes_per_sample fmt * xs.length) (ho : out.length = xs.length) :
    (∃ w, pack_from_i32 xs io fmt xs.length = some w
        ∧ unpack_to_i32 w out fmt xs.length
            = some (if fmt = SND_PCM_FORMAT_S32_LE then xs else xs.map (clear_low_bits 16)))
      ∧ (∀ x ∈ xs, wrap16 (sar32 x 16) = sar32 x 16
            ∧ -32768 ≤ sar32 x 16 ∧ sar32 x 16 < 32768
            ∧ clear_low_bits 16 x % 65536 = 0
            ∧ clear_low_bits 16 x / 65536 = x / 65536) := by
  constructor
  · rcases hfmt with h | h
    · subst h
      have hio4 : io.length = 4 * xs.length := hio
      refine ⟨_, pack_S32 xs io hio4, ?_⟩
      rw [unpack_S32 _ out xs.length (length_flatten_blocks 4 bytes_of_i32 (fun _ => rfl) xs) ho,
        if_pos rfl]
      congr 1
      refine (words32_blocks id xs).trans ?_
      conv_rhs => rw [← List.map_id xs]
      apply List.map_congr_left
      intro x hxm
      exact wrap32_of_range x (hx x hxm).1 (hx x hxm).2
    · subst h
      have hio2 : io.length = 2 * xs.length := hio
      refine ⟨_, pack_S16 xs io hio2, ?_⟩
      rw [unpack_S16 _ out xs.length
        (length_flatten_blocks 2 (fun x => bytes_of_i16 (wrap16 (sar32 x 16))) (fun _ => rfl) xs)
        ho, if_neg (by decide)]
      congr 1
      rw [words16_blocks (fun x => wrap16 (sar32 x 16)) xs, List.map_map]
      apply List.map_congr_left
      intro x hxm
      have h16 := sar16_fits x (hx x hxm).1 (hx x hxm).2
      simp only [Function.comp, h16]
      rw [← h16]
      exact s16_sample_round_trip x (hx x hxm).1 (hx x hxm).2
  · intro x hxm
    have h16 := sar16_fits x (hx x hxm).1 (hx x hxm).2
    have hr := wrap16_range (sar32 x 16)
    rw [h16] at hr
    refine ⟨h16, hr.1, hr.2, ?_, ?_⟩
    · unfold clear_low_bits; norm_num; omega
    · unfold clear_low_bits; norm_num; omega

/-- Witness of C1: three extreme samples in the 16-bit format. -/
theorem C1_encode_decode_s32_s16_witness :
    (∃ w, pack_from_i32 [-2147483648, -1, 2147483647] [0, 0, 0, 0, 0, 0] SND_PCM_FORMAT_S16_LE 3
          = some w
        ∧ unpack_to_i32 w [0, 0, 0] SND_PCM_FORMAT_S16_LE 3
            = some (if SND_PCM_FORMAT_S16_LE = SND_PCM_FORMAT_S32_LE
                then [-2147483648, -1, 2147483647]
                else [-2147483648, -1, 2147483647].map (clear_low_bits 16)))
      ∧ (∀ x ∈ [-2147483648, -1, 2147483647], wrap16 (sar32 x 16) = sar32 x 16
            ∧ -32768 ≤ sar32 x 16 ∧ sar32 x 16 < 32768
            ∧ clear_low_bits 16 x % 65536 = 0
            ∧ clear_low_bits 16 x / 65536 = x / 65536) :=
  C1_encode_decode_s32_s16 SND_PCM_FORMAT_S16_LE [-2147483648, -1, 2147483647]
    [0, 0, 0, 0, 0, 0] [0, 0, 0] (Or.inr rfl) (by decide) (by decide) (by decide)

/-- C2 fails as stated: `0x01000000` has all of its low 8 bits clear already, yet encoding it
as `S24_LE` and decoding gives `0`, not the sample; the top 8 bits are the ones dropped. -/
theorem C2_counterexample :
    (pack_from_i32 [16777216] [0, 0, 0, 0] SND_PCM_FORMAT_S24_LE 1).bind
        (fun w => unpack_to_i32 w [0] SND_PCM_FORMAT_S24_LE 1) = some [0]
      ∧ clear_low_bits 8 16777216 = 16777216
      ∧ (pack_from_i32 [16777216] [0, 0, 0, 0] SND_PCM_FORMAT_S24_LE 1).bind
        (fun w => unpack_to_i32 w [0] SND_PCM_FORMAT_S24_LE 1)
          ≠ some [clear_low_bits 8 16777216] := by
  decide

/-- C2 amended: `pack_from_i32` followed by `unpack_to_i32` in `S24_LE` runs inside the
buffers and returns every sample reduced to its low 24 bits read as a signed 24-bit number
(bits 0 to 23 kept, bits 24 to 31 replaced by copies of bit 23); that is the sample itself
exactly when it lies in `[-2^23, 2^23)`. -/
theorem C2_encode_decode_s24 (xs : List Int) (io : List Byte) (out : List Int)
    (hio : io.length = bytes_per_sample SND_PCM_FORMAT_S24_LE * xs.length)
    (ho : out.length = xs.length) :
    (∃ w, pack_from_i32 xs io SND_PCM_FORMAT_S24_LE xs.length = some w
        ∧ unpack_to_i32 w out SND_PCM_FORMAT_S24_LE xs.length = some (xs.map sign_extend24))
      ∧ (∀ x : Int, sign_extend24 x % 16777216 = x % 16777216
            ∧ -8388608 ≤ sign_extend24 x ∧ sign_extend24 x < 8388608
            ∧ (sign_extend24 x = x ↔ -8388608 ≤ x ∧ x < 8388608)) := by
  constructor
  · have hio4 : io.length = 4 * xs.length := hio
    refine ⟨_, pack_S24 xs io hio4, ?_⟩
    rw [unpack_S24 _ out xs.length
      (length_flatten_blocks 4 (fun x => bytes_of_i32 (sign_extend24 x)) (fun _ => rfl) xs) ho]
    congr 1
    rw [words32_blocks sign_extend24 xs, List.map_map]
    apply List.map_congr_left
    intro x _
    have hr : -8388608 ≤ sign_extend24 x ∧ sign_extend24 x < 8388608 := by
      unfold sign_extend24; omega
    simp only [Function.comp]
    rw [wrap32_of_range _ (by omega) (by omega), sign_extend24_idem]
  · intro x
    unfold sign_extend24
    omega

/-- Witness of C2 amended: two samples, one inside and one outside the 24-bit range. -/
theorem C2_encode_decode_s24_witness :
    (∃ w, pack_from_i32 [-5, 16777216] [0, 0, 0, 0, 0, 0, 0, 0] SND_PCM_FORMAT_S24_LE 2 = some w
        ∧ unpack_to_i32 w [0, 0] SND_PCM_FORMAT_S24_LE 2
            = some ([-5, 16777216].map sign_extend24))
      ∧ (∀ x : Int, sign_extend24 x % 16777216 = x % 16777216
            ∧ -8388608 ≤ sign_extend24 x ∧ sign_extend24 x < 8388608
            ∧ (sign_extend24 x = x ↔ -8388608 ≤ x ∧ x < 8388608)) :=
  C2_encode_decode_s24 [-5, 16777216] [0, 0, 0, 0, 0, 0, 0, 0] [0, 0] (by decide) (by decide)

/-! ## The conversion chain of one iteration -/

/-- C3 fails as stated: with both sides in `S24_LE` the sample `-1` stored with a zero
padding byte (container `0x00FFFFFF`, bytes `FF FF FF 00`) comes out of the chain as
`FF FF FF FF`, so `io_buf` is not what was captured. -/
theorem C3_counterexample :
    convert_chain
        { rate := 48000, format := SND_PCM_FORMAT_S24_LE, channels := 1, period := 1, periods := 3 }
        { rate := 48000, format := SND_PCM_FORMAT_S24_LE, channels := 1, period := 1, periods := 3 }
        [255, 255, 255, 0] [0]
      = some ([255, 255, 255, 255], [-1])
    ∧ ([255, 255, 255, 255] : List Byte) ≠ [255, 255, 255, 0] := by
  decide

/-- C3 amended: with the shipped `dsp_process_int32` and the same format on both sides, the
chain `unpack_to_i32`, `dsp_process_int32`, `pack_from_i32` runs inside the buffers for every
period size, channel count and content of `io_buf`; it leaves `io_buf` bit-for-bit identical
for `S32_LE` and `S16_LE`, and for `S24_LE` it keeps the low three bytes of every 4-byte
container and sets the top byte to the sign extension of bit 23. -/
theorem C3_chain_same_format (cap play : pcm_side_t) (io_buf : List Byte) (dsp_buf : List Int)
    (hfmt : cap.format = SND_PCM_FORMAT_S32_LE ∨ cap.format = SND_PCM_FORMAT_S24_LE
      ∨ cap.format = SND_PCM_FORMAT_S16_LE)
    (hsame : play.format = cap.format)
    (hfit : main_samples cap * bytes_per_sample cap.format < 18446744073709551616)
    (hio : io_buf.length = main_buf_bytes cap)
    (hdsp : dsp_buf.length = main_samples cap) :
    (convert_chain cap play io_buf dsp_buf).map Prod.fst
      = some (if cap.format = SND_PCM_FORMAT_S24_LE then sign_extend24_bytes io_buf
              else io_buf) := by
  have hlen : io_buf.length = bytes_per_sample cap.format * main_samples cap := by
    rw [hio]
    unfold main_buf_bytes wrap_size
    rw [Nat.mod_eq_of_lt hfit, Nat.mul_comm]
  simp only [convert_chain, dsp_process_int32]
  rw [hsame]
  generalize main_samples cap = n at *
  rcases hfmt with h | h | h
  · rw [h] at hlen ⊢
    have h4 : io_buf.length = 4 * n := hlen
    have hw := length_words32 n io_buf h4
    rw [unpack_S32 io_buf dsp_buf n h4 hdsp, Option.some_bind]
    have hp := pack_S32 (words32 io_buf) io_buf (by rw [hw]; exact h4)
    rw [hw] at hp
    rw [hp, blocks_words32 n io_buf h4, if_neg (by decide)]
    rfl
  · rw [h] at hlen ⊢
    have h4 : io_buf.length = 4 * n := hlen
    have hw : ((words32 io_buf).map sign_extend24).length = n := by
      rw [List.length_map]
      exact length_words32 n io_buf h4
    rw [unpack_S24 io_buf dsp_buf n h4 hdsp, Option.some_bind]
    have hp := pack_S24 ((words32 io_buf).map sign_extend24) io_buf (by rw [hw]; exact h4)
    rw [hw] at hp
    rw [hp, blocks_words32_s24 n io_buf h4, if_pos rfl]
    rfl
  · rw [h] at hlen ⊢
    have h2 : io_buf.length = 2 * n := hlen
    have hw : ((words16 io_buf).map (fun p => shl32 p 16)).length = n := by
      rw [List.length_map]
      exact length_words16 n io_buf h2
    rw [unpack_S16 io_buf dsp_buf n h2 hdsp, Option.some_bind]
    have hp := pack_S16 ((words16 io_buf).map (fun p => shl32 p 16)) io_buf
      (by rw [hw]; exact h2)
    rw [hw] at hp
    rw [hp, blocks_words16 n io_buf h2, if_neg (by decide)]
    rfl

/-- Witness of C3 amended: one stereo frame of `S16_LE`. -/
theorem C3_chain_same_format_witness :
    (convert_chain
        { rate := 48000, format := SND_PCM_FORMAT_S16_LE, channels := 2, period := 1, periods := 3 }
        { rate := 48000, format := SND_PCM_FORMAT_S16_LE, channels := 2, period := 1, periods := 3 }
        [1, 128, 255, 127] [9, 9]).map Prod.fst
      = some (if SND_PCM_FORMAT_S16_LE = SND_PCM_FORMAT_S24_LE
              then sign_extend24_bytes [1, 128, 255, 127] else [1, 128, 255, 127]) :=
  C3_chain_same_format
    { rate := 48000, format := SND_PCM_FORMAT_S16_LE, channels := 2, period := 1, periods := 3 }
    { rate := 48000, format := SND_PCM_FORMAT_S16_LE, channels := 2, period := 1, periods := 3 }
    [1, 128, 255, 127] [9, 9] (Or.inr (Or.inr rfl)) rfl (by decide) (by decide) (by decide)

/-! ## Decoding the most negative wire value -/

/-- C4 fails as stated: the 24-bit-in-32 wire sample `-2^23` (bytes `00 00 80 00`) decodes to
`-2^23`, not to `-2^31`. -/
theorem C4_counterexample :
    unpack_to_i32 [0, 0, 128, 0] [0] SND_PCM_FORMAT_S24_LE 1 = some [-8388608]
      ∧ unpack_to_i32 [0, 0, 128, 0] [0] SND_PCM_FORMAT_S24_LE 1 ≠ some [-2147483648] := by
  decide

/-- C4 amended: `unpack_to_i32` maps the 32-bit wire value `-2^31` to `-2^31`, and the
24-bit-in-32 wire sample `-2^23` (low 24 bits `0x800000`, any top byte) to `-2^23`: the sign
is kept, the magnitude is not scaled to bit 31. -/
theorem C4_decode_most_negative (t : Byte) (o : Int) :
    unpack_to_i32 [0, 0, 0, 128] [o] SND_PCM_FORMAT_S32_LE 1 = some [-2147483648]
      ∧ unpack_to_i32 [0, 0, 128, t] [o] SND_PCM_FORMAT_S24_LE 1 = some [-8388608] := by
  constructor
  · rw [unpack_S32 [0, 0, 0, 128] [o] 1 rfl rfl]
    rfl
  · rw [unpack_S24 [0, 0, 128, t] [o] 1 rfl rfl]
    simp only [words32, List.map_cons, List.map_nil, Option.some.injEq, List.cons.injEq, and_true]
    unfold sign_extend24 i32_of_bytes wrap32
    have ht := t.isLt
    simp only [Fin.isValue, Fin.val_zero]
    show (((0 : Int) + 256 * 0 + 65536 * 128 + 16777216 * (t.val : Int) + 2147483648)
      % 4294967296 - 2147483648 + 8388608) % 16777216 - 8388608 = -8388608
    omega

/-! ## Formats outside the three supported ones -/

/-- C5 fails as stated: for the format `SND_PCM_FORMAT_U8` (value `1`) both functions return
normally, with the output buffer as it was. -/
theorem C5_counterexample :
    unpack_to_i32 [1, 2] [7] 1 1 = some [7] ∧ unpack_to_i32 [1, 2] [7] 1 1 ≠ none
      ∧ pack_from_i32 [7] [1, 2] 1 1 = some [1, 2] ∧ pack_from_i32 [7] [1, 2] 1 1 ≠ none := by
  decide

/-- C5 amended: for every format other than `S32_LE`, `S24_LE` and `S16_LE`, both
`unpack_to_i32` and `pack_from_i32` return normally without reporting anything and leave the
output buffer exactly as it was, whatever the input and the sample count. -/
theorem C5_other_format_is_ignored (fmt : Int) (inp : List Byte) (out : List Int)
    (xs : List Int) (q : List Byte) (samples : Nat)
    (h32 : fmt ≠ SND_PCM_FORMAT_S32_LE) (h24 : fmt ≠ SND_PCM_FORMAT_S24_LE)
    (h16 : fmt ≠ SND_PCM_FORMAT_S16_LE) :
    unpack_to_i32 inp out fmt samples = some out ∧ pack_from_i32 xs q fmt samples = some q := by
  unfold unpack_to_i32 pack_from_i32
  simp only [h32, h24, h16, if_false, and_self]

/-- Witness of C5 amended: the format `SND_PCM_FORMAT_S24_3LE` (value `32`). -/
theorem C5_other_format_is_ignored_witness :
    unpack_to_i32 [1, 2, 3] [7] 32 1 = some [7] ∧ pack_from_i32 [7] [1, 2, 3] 32 1 = some [1, 2, 3] :=
  C5_other_format_is_ignored 32 [1, 2, 3] [7] [7] [1, 2, 3] 1 (by decide) (by decide) (by decide)

/-! ## Format negotiation -/

/-- C6 fails as stated: on a device that accepts only `S24_LE`, a request for `S16_LE` ends
in `exit(1)` after "No supported format.", where the described fallback order would settle on
`S24_LE`. -/
theorem C6_counterexample :
    set_hw_sw_params_format (fun f => decide (f = SND_PCM_FORMAT_S24_LE)) SND_PCM_FORMAT_S16_LE
        = SetupResult.exit 1
      ∧ spec_fallback (fun f => decide (f = SND_PCM_FORMAT_S24_LE)) SND_PCM_FORMAT_S16_LE
        = SetupResult.negotiated SND_PCM_FORMAT_S24_LE := by
  decide

/-- C6 amended: `set_hw_sw_params` keeps an accepted requested format; if the request is
rejected it settles on `S32_LE` when the device accepts it, otherwise on `S16_LE` when the
device accepts that, and otherwise exits with status 1 ("No supported format."). `S24_LE` is
never tried as a fallback: it is negotiated only when it was requested and accepted. A
request for `S16_LE` on a device that accepts only `S32_LE` yields `S32_LE`. -/
theorem C6_format_negotiation (accepts : Int → Bool) (requested : Int) :
    set_hw_sw_params_format accepts requested
        = (if accepts requested then SetupResult.negotiated requested
           else if accepts SND_PCM_FORMAT_S32_LE then SetupResult.negotiated SND_PCM_FORMAT_S32_LE
           else if accepts SND_PCM_FORMAT_S16_LE then SetupResult.negotiated SND_PCM_FORMAT_S16_LE
           else SetupResult.exit 1)
      ∧ (set_hw_sw_params_format accepts requested
            = SetupResult.negotiated SND_PCM_FORMAT_S24_LE
          → requested = SND_PCM_FORMAT_S24_LE ∧ accepts SND_PCM_FORMAT_S24_LE = true)
      ∧ set_hw_sw_params_format (fun f => decide (f = SND_PCM_FORMAT_S32_LE))
            SND_PCM_FORMAT_S16_LE
          = SetupResult.negotiated SND_PCM_FORMAT_S32_LE := by
  have hmain : set_hw_sw_params_format accepts requested
        = (if accepts requested then SetupResult.negotiated requested
           else if accepts SND_PCM_FORMAT_S32_LE then SetupResult.negotiated SND_PCM_FORMAT_S32_LE
           else if accepts SND_PCM_FORMAT_S16_LE then SetupResult.negotiated SND_PCM_FORMAT_S16_LE
           else SetupResult.exit 1) := by
    unfold set_hw_sw_params_format snd_pcm_hw_params_set_format
    cases accepts requested <;> cases accepts SND_PCM_FORMAT_S32_LE <;>
      cases accepts SND_PCM_FORMAT_S16_LE <;> simp
  refine ⟨hmain, ?_, by decide⟩
  rw [hmain]
  intro h
  cases hr : accepts requested with
  | true =>
    rw [hr] at h
    simp only [if_true, SetupResult.negotiated.injEq] at h
    subst h
    exact ⟨rfl, hr⟩
  | false =>
    rw [hr] at h
    cases h32 : accepts SND_PCM_FORMAT_S32_LE <;> cases h16 : accepts SND_PCM_FORMAT_S16_LE <;>
      rw [h32, h16] at h <;> simp only [Bool.false_eq_true, if_false, if_true] at h <;>
      exact absurd h (by decide)

/-! ## Zero padding of a short read -/

theorem wrap_size_mul (a c : Nat) : wrap_size (wrap_size a * c) = wrap_size (a * c) := by
  unfold wrap_size
  rw [Nat.mul_mod, Nat.mod_mod, ← Nat.mul_mod]

/-- The bytes written by `zero_pad` when the period fits `size_t`: offset and length are the
exact products and end at the end of a buffer of `frames * bps * channels` bytes. -/
theorem zero_pad_arith (r frames bps channels : Nat) (hr : r < frames)
    (hfit : frames * bps * channels < 18446744073709551616) :
    wrap_size (wrap_size (r * bps) * channels) = r * bps * channels
      ∧ wrap_size (wrap_size (wrap_size (frames - r) * bps) * channels)
          = (frames - r) * bps * channels
      ∧ r * bps * channels + (frames - r) * bps * channels = frames * bps * channels := by
  have hsum : r * bps * channels + (frames - r) * bps * channels = frames * bps * channels := by
    have : r + (frames - r) = frames := by omega
    calc r * bps * channels + (frames - r) * bps * channels
        = (r + (frames - r)) * bps * channels := by ring
      _ = frames * bps * channels := by rw [this]
  refine ⟨?_, ?_, hsum⟩
  · rw [wrap_size_mul]
    unfold wrap_size
    exact Nat.mod_eq_of_lt (by omega)
  · rw [wrap_size_mul, Nat.mul_assoc, wrap_size_mul, ← Nat.mul_assoc]
    unfold wrap_size
    exact Nat.mod_eq_of_lt (by omega)

/-- The device stores into `io_buf` without changing its size. -/
theorem length_deposit (io_buf data : List Byte) :
    (deposit io_buf data).length = io_buf.length := by
  unfold deposit
  simp only [List.length_append, List.length_take, List.length_drop]
  omega

/-- On a buffer of the size `main` allocates, for a period that fits `size_t`, the call
`zero_pad` stays inside the buffer, keeps the first `k` frames and zeroes the rest. -/
theorem zero_pad_inside_buffer (cap : pcm_side_t) (k : Nat) (io_buf : List Byte)
    (hk : k < cap.period)
    (hfit : cap.period * bytes_per_sample cap.format * cap.channels < 18446744073709551616)
    (hio : io_buf.length = main_buf_bytes cap) :
    ∃ padded, zero_pad io_buf k cap.period (bytes_per_sample cap.format) cap.channels
          = some padded
      ∧ padded.length = io_buf.length
      ∧ io_buf.length = cap.period * bytes_per_sample cap.format * cap.channels
      ∧ padded.take (k * bytes_per_sample cap.format * cap.channels)
          = io_buf.take (k * bytes_per_sample cap.format * cap.channels)
      ∧ padded.drop (k * bytes_per_sample cap.format * cap.channels)
          = List.replicate ((cap.period - k) * bytes_per_sample cap.format * cap.channels) 0 := by
  obtain ⟨hoff, hlen, hsum⟩ :=
    zero_pad_arith k cap.period (bytes_per_sample cap.format) cap.channels hk hfit
  have hsize : io_buf.length = cap.period * bytes_per_sample cap.format * cap.channels := by
    rw [hio]
    unfold main_buf_bytes main_samples
    rw [wrap_size_mul]
    unfold wrap_size
    rw [Nat.mod_eq_of_lt (by
      have : cap.period * cap.channels * bytes_per_sample cap.format
          = cap.period * bytes_per_sample cap.format * cap.channels := by ring
      omega)]
    ring
  unfold zero_pad
  simp only [hoff, hlen]
  unfold memset_zero write_bytes
  rw [if_pos (by rw [List.length_replicate]; omega)]
  refine ⟨_, rfl, ?_, hsize, ?_, ?_⟩
  · simp only [List.length_append, List.length_take, List.length_replicate, List.length_drop]
    omega
  · rw [List.append_assoc, List.take_append_of_le_length (by rw [List.length_take]; omega),
      List.take_take, Nat.min_self]
  · rw [List.append_assoc, List.drop_append_of_le_length (by rw [List.length_take]; omega),
      List.drop_of_length_le (by rw [List.length_take]; omega), List.nil_append,
      List.drop_of_length_le (by rw [List.length_replicate]; omega), List.append_nil]

/-- C8: for a period that fits `size_t`, a capture read in `main` that returns `k < n` frames
is followed by the zero padding before anything is converted: the padding stays inside the
buffer of `n * bytes_per_sample * channels` bytes, leaves the bytes of the first `k` frames
as the device stored them and makes every byte from offset `k * bytes_per_sample * channels`
to the end, the last `n - k` frames, zero; and the iteration goes on with `unpack_to_i32`
(the head of the conversion chain) reading exactly this padded buffer, up to the playback
write. -/
theorem C8_zero_pad_short_read (cap play : pcm_side_t) (k : Nat) (io_buf data : List Byte)
    (dsp_buf : List Int) (trace : List Event)
    (hk : k < cap.period)
    (hfit : cap.period * bytes_per_sample cap.format * cap.channels < 18446744073709551616)
    (hio : io_buf.length = main_buf_bytes cap) :
    ∃ padded, zero_pad (deposit io_buf data) k cap.period (bytes_per_sample cap.format)
          cap.channels = some padded
      ∧ padded.length = io_buf.length
      ∧ io_buf.length = cap.period * bytes_per_sample cap.format * cap.channels
      ∧ padded.take (k * bytes_per_sample cap.format * cap.channels)
          = (deposit io_buf data).take (k * bytes_per_sample cap.format * cap.channels)
      ∧ padded.drop (k * bytes_per_sample cap.format * cap.channels)
          = List.replicate ((cap.period - k) * bytes_per_sample cap.format * cap.channels) 0
      ∧ main_loop_step cap play
            { pc := PC.at_readi, io_buf := io_buf, dsp_buf := dsp_buf, trace := trace }
            { ret := (k : Int), data := data }
          = (match (unpack_to_i32 padded dsp_buf cap.format (main_samples cap)).bind (fun d1 =>
                (pack_from_i32 (dsp_process_int32 d1 (main_samples cap) cap.channels) padded
                  play.format (main_samples cap)).bind (fun io2 =>
                    some (io2, dsp_process_int32 d1 (main_samples cap) cap.channels))) with
             | some (io2, d2) =>
               { pc := PC.at_writei, io_buf := io2, dsp_buf := d2,
                 trace := trace ++ [Event.readi (k : Int)] }
             | none =>
               { pc := PC.undefined, io_buf := deposit io_buf data, dsp_buf := dsp_buf,
                 trace := trace ++ [Event.readi (k : Int)] }) := by
  have hio2 : (deposit io_buf data).length = main_buf_bytes cap := by
    rw [length_deposit, hio]
  obtain ⟨padded, hz, hl, hs, ht, hd⟩ :=
    zero_pad_inside_buffer cap k (deposit io_buf data) hk hfit hio2
  rw [length_deposit] at hl hs
  refine ⟨padded, hz, hl, hs, ht, hd, ?_⟩
  have hnn : ¬ ((k : Int) < 0) := by omega
  simp only [main_loop_step, hnn, if_false, Int.toNat_ofNat, hk, if_true, hz, Option.some_bind,
    convert_chain]

/-- Witness of C8: one frame read out of two, stereo `S16_LE`, into a buffer that still
holds the previous period. -/
theorem C8_zero_pad_short_read_witness :
    ∃ padded, zero_pad (deposit [9, 9, 9, 9, 9, 9, 9, 9] [1, 2, 3, 4, 5, 6, 7, 8]) 1 2 2 2
          = some padded
      ∧ padded.length = [9, 9, 9, 9, 9, 9, 9, (9 : Byte)].length
      ∧ [9, 9, 9, 9, 9, 9, 9, (9 : Byte)].length = 2 * 2 * 2
      ∧ padded.take (1 * 2 * 2)
          = (deposit [9, 9, 9, 9, 9, 9, 9, 9] [1, 2, 3, 4, 5, 6, 7, 8]).take (1 * 2 * 2)
      ∧ padded.drop (1 * 2 * 2) = List.replicate ((2 - 1) * 2 * 2) 0
      ∧ main_loop_step
            { rate := 48000, format := SND_PCM_FORMAT_S16_LE, channels := 2, period := 2,
              periods := 3 }
            { rate := 48000, format := SND_PCM_FORMAT_S16_LE, channels := 2, period := 2,
              periods := 3 }
            { pc := PC.at_readi, io_buf := [9, 9, 9, 9, 9, 9, 9, 9], dsp_buf := [7, 7, 7, 7],
              trace := [] }
            { ret := ((1 : Nat) : Int), data := [1, 2, 3, 4, 5, 6, 7, 8] }
          = (match (unpack_to_i32 padded [7, 7, 7, 7] SND_PCM_FORMAT_S16_LE 4).bind (fun d1 =>
                (pack_from_i32 (dsp_process_int32 d1 4 2) padded
                  SND_PCM_FORMAT_S16_LE 4).bind (fun io2 =>
                    some (io2, dsp_process_int32 d1 4 2))) with
             | some (io2, d2) =>
               { pc := PC.at_writei, io_buf := io2, dsp_buf := d2,
                 trace := [] ++ [Event.readi ((1 : Nat) : Int)] }
             | none =>
               { pc := PC.undefined,
                 io_buf := deposit [9, 9, 9, 9, 9, 9, 9, 9] [1, 2, 3, 4, 5, 6, 7, 8],
                 dsp_buf := [7, 7, 7, 7], trace := [] ++ [Event.readi ((1 : Nat) : Int)] }) :=
  C8_zero_pad_short_read
    { rate := 48000, format := SND_PCM_FORMAT_S16_LE, channels := 2, period := 2, periods := 3 }
    { rate := 48000, format := SND_PCM_FORMAT_S16_LE, channels := 2, period := 2, periods := 3 }
    1 [9, 9, 9, 9, 9, 9, 9, 9] [1, 2, 3, 4, 5, 6, 7, 8] [7, 7, 7, 7] [] (by decide) (by decide)
    (by decide)

/-! ## The steady-state loop: recovery and exit -/

theorem main_after_loop_pc (st : LoopState) : (main_after_loop st).pc = PC.exited 0 := rfl

theorem main_after_loop_trace (st : LoopState) :
    (main_after_loop st).trace
      = st.trace ++ [Event.close_cap, Event.close_play, Event.exit 0] := rfl

/-- A step of the loop reaches `exited` only through the code after the loop. -/
theorem main_loop_step_exit (cap play : pcm_side_t) (st : LoopState) (resp : Resp)
    (h : ∀ c, st.pc = PC.exited c →
      c = 0 ∧ ∃ pre, st.trace = pre ++ [Event.close_cap, Event.close_play, Event.exit 0]) :
    ∀ c, (main_loop_step cap play st resp).pc = PC.exited c →
      c = 0 ∧ ∃ pre, (main_loop_step cap play st resp).trace
        = pre ++ [Event.close_cap, Event.close_play, Event.exit 0] := by
  intro c hc
  obtain ⟨pc, io, dsp, tr⟩ := st
  cases pc with
  | at_readi =>
    simp only [main_loop_step] at hc ⊢
    split_ifs at hc ⊢
    all_goals first
      | (simp only [main_after_loop_pc, PC.exited.injEq] at hc
         exact ⟨hc.symm, _, main_after_loop_trace _⟩)
      | (split at hc <;> simp at hc)
  | at_cap_recover e =>
    simp only [main_loop_step] at hc ⊢
    split_ifs at hc ⊢
    all_goals
      simp only [main_after_loop_pc, PC.exited.injEq] at hc
      exact ⟨hc.symm, _, main_after_loop_trace _⟩
  | at_writei =>
    simp only [main_loop_step] at hc ⊢
    split_ifs at hc ⊢
    all_goals
      simp only [main_after_loop_pc, PC.exited.injEq] at hc
      exact ⟨hc.symm, _, main_after_loop_trace _⟩
  | at_play_recover e =>
    simp only [main_loop_step] at hc ⊢
    split_ifs at hc ⊢
    all_goals
      simp only [main_after_loop_pc, PC.exited.injEq] at hc
      exact ⟨hc.symm, _, main_after_loop_trace _⟩
  | exited c0 =>
    exact h c hc
  | undefined =>
    exact h c hc

/-- Every run of the loop that has ended went through the code after the loop. -/
theorem main_loop_exit (cap play : pcm_side_t) (resps : List Resp) (st : LoopState)
    (h : ∀ c, st.pc = PC.exited c →
      c = 0 ∧ ∃ pre, st.trace = pre ++ [Event.close_cap, Event.close_play, Event.exit 0]) :
    ∀ c, (main_loop cap play st resps).pc = PC.exited c →
      c = 0 ∧ ∃ pre, (main_loop cap play st resps).trace
        = pre ++ [Event.close_cap, Event.close_play, Event.exit 0] := by
  induction resps generalizing st with
  | nil => exact h
  | cons r rs ih =>
    exact ih (main_loop_step cap play st r) (main_loop_step_exit cap play st r h)

/-- C9 fails as stated: a capture read that returns `-EIO` (`-5`) ends the loop, both
endpoints are closed, and `main` returns `0`, not `1`. -/
theorem C9_counterexample :
    main_loop
        { rate := 48000, format := SND_PCM_FORMAT_S32_LE, channels := 1, period := 1, periods := 3 }
        { rate := 48000, format := SND_PCM_FORMAT_S32_LE, channels := 1, period := 1, periods := 3 }
        { pc := PC.at_readi, io_buf := [0, 0, 0, 0], dsp_buf := [0], trace := [] }
        [{ ret := -5, data := [] }]
      = { pc := PC.exited 0, io_buf := [0, 0, 0, 0], dsp_buf := [0],
          trace := [Event.readi (-5), Event.close_cap, Event.close_play, Event.exit 0] }
      ∧ PC.exited 0 ≠ PC.exited 1 := by
  decide

/-- C9 amended: whenever the loop ends because of a fatal runtime error (`snd_pcm_recover`
fails on the capture or on the playback endpoint, or a read or a write returns an error
other than `-EPIPE` and `-ESTRPIPE`), both endpoints are closed, capture first, and `main`
returns `0`; and every run of the loop that has ended, whatever the devices answered, ended
with both endpoints closed and the return value `0`. -/
theorem C9_fatal_error_closes_and_returns_0 (cap play : pcm_side_t) (io_buf : List Byte)
    (dsp_buf : List Int) (trace : List Event) (e : Int) (rcv err : Resp)
    (hrec : rcv.ret < 0) (herr : err.ret < 0)
    (hother : wrap32 err.ret ≠ -EPIPE ∧ wrap32 err.ret ≠ -ESTRPIPE) :
    main_loop_step cap play
        { pc := PC.at_cap_recover e, io_buf := io_buf, dsp_buf := dsp_buf, trace := trace } rcv
      = { pc := PC.exited 0, io_buf := io_buf, dsp_buf := dsp_buf,
          trace := trace ++ [Event.cap_recover e rcv.ret, Event.close_cap, Event.close_play,
                             Event.exit 0] }
    ∧ main_loop_step cap play
        { pc := PC.at_play_recover e, io_buf := io_buf, dsp_buf := dsp_buf, trace := trace } rcv
      = { pc := PC.exited 0, io_buf := io_buf, dsp_buf := dsp_buf,
          trace := trace ++ [Event.play_recover e rcv.ret, Event.close_cap, Event.close_play,
                             Event.exit 0] }
    ∧ main_loop_step cap play
        { pc := PC.at_readi, io_buf := io_buf, dsp_buf := dsp_buf, trace := trace } err
      = { pc := PC.exited 0, io_buf := deposit io_buf err.data, dsp_buf := dsp_buf,
          trace := trace ++ [Event.readi err.ret, Event.close_cap, Event.close_play,
                             Event.exit 0] }
    ∧ main_loop_step cap play
        { pc := PC.at_writei, io_buf := io_buf, dsp_buf := dsp_buf, trace := trace } err
      = { pc := PC.exited 0, io_buf := io_buf, dsp_buf := dsp_buf,
          trace := trace ++ [Event.writei io_buf err.ret, Event.close_cap, Event.close_play,
                             Event.exit 0] }
    ∧ (∀ (resps : List Resp) (c : Int),
        (main_loop cap play
          { pc := PC.at_readi, io_buf := io_buf, dsp_buf := dsp_buf, trace := trace } resps).pc
            = PC.exited c →
        c = 0 ∧ ∃ pre, (main_loop cap play
          { pc := PC.at_readi, io_buf := io_buf, dsp_buf := dsp_buf, trace := trace } resps).trace
            = pre ++ [Event.close_cap, Event.close_play, Event.exit 0]) := by
  have hno : ¬ (wrap32 err.ret = -EPIPE ∨ wrap32 err.ret = -ESTRPIPE) := by
    intro h
    rcases h with h | h
    · exact hother.1 h
    · exact hother.2 h
  refine ⟨?_, ?_, ?_, ?_, ?_⟩
  · simp only [main_loop_step, main_after_loop, hrec, if_true, List.append_assoc,
      List.cons_append, List.nil_append]
  · simp only [main_loop_step, main_after_loop, hrec, if_true, List.append_assoc,
      List.cons_append, List.nil_append]
  · simp only [main_loop_step, main_after_loop, herr, hno, if_true, if_false, List.append_assoc,
      List.cons_append, List.nil_append]
  · simp only [main_loop_step, main_after_loop, herr, hno, if_true, if_false, List.append_assoc,
      List.cons_append, List.nil_append]
  · intro resps
    exact main_loop_exit cap play resps _ (fun c hc => by cases hc)

/-- Witness of C9 amended: a failed recovery (`-EIO`) and a read or write error `-EBADFD`. -/
theorem C9_fatal_error_closes_and_returns_0_witness :
    main_loop_step
        { rate := 48000, format := SND_PCM_FORMAT_S32_LE, channels := 1, period := 1, periods := 3 }
        { rate := 48000, format := SND_PCM_FORMAT_S32_LE, channels := 1, period := 1, periods := 3 }
        { pc := PC.at_cap_recover (-32), io_buf := [1, 2, 3, 4], dsp_buf := [0], trace := [] }
        { ret := -5, data := [] }
      = { pc := PC.exited 0, io_buf := [1, 2, 3, 4], dsp_buf := [0],
          trace := [] ++ [Event.cap_recover (-32) (-5), Event.close_cap, Event.close_play,
                          Event.exit 0] }
    ∧ main_loop_step
        { rate := 48000, format := SND_PCM_FORMAT_S32_LE, channels := 1, period := 1, periods := 3 }
        { rate := 48000, format := SND_PCM_FORMAT_S32_LE, channels := 1, period := 1, periods := 3 }
        { pc := PC.at_play_recover (-32), io_buf := [1, 2, 3, 4], dsp_buf := [0], trace := [] }
        { ret := -5, data := [] }
      = { pc := PC.exited 0, io_buf := [1, 2, 3, 4], dsp_buf := [0],
          trace := [] ++ [Event.play_recover (-32) (-5), Event.close_cap, Event.close_play,
                          Event.exit 0] }
    ∧ main_loop_step
        { rate := 48000, format := SND_PCM_FORMAT_S32_LE, channels := 1, period := 1, periods := 3 }
        { rate := 48000, format := SND_PCM_FORMAT_S32_LE, channels := 1, period := 1, periods := 3 }
        { pc := PC.at_readi, io_buf := [1, 2, 3, 4], dsp_buf := [0], trace := [] }
        { ret := -77, data := [] }
      = { pc := PC.exited 0, io_buf := deposit [1, 2, 3, 4] [], dsp_buf := [0],
          trace := [] ++ [Event.readi (-77), Event.close_cap, Event.close_play, Event.exit 0] }
    ∧ main_loop_step
        { rate := 48000, format := SND_PCM_FORMAT_S32_LE, channels := 1, period := 1, periods := 3 }
        { rate := 48000, format := SND_PCM_FORMAT_S32_LE, channels := 1, period := 1, periods := 3 }
        { pc := PC.at_writei, io_buf := [1, 2, 3, 4], dsp_buf := [0], trace := [] }
        { ret := -77, data := [] }
      = { pc := PC.exited 0, io_buf := [1, 2, 3, 4], dsp_buf := [0],
          trace := [] ++ [Event.writei [1, 2, 3, 4] (-77), Event.close_cap, Event.close_play,
                          Event.exit 0] }
    ∧ (∀ (resps : List Resp) (c : Int),
        (main_loop
          { rate := 48000, format := SND_PCM_FORMAT_S32_LE, channels := 1, period := 1,
            periods := 3 }
          { rate := 48000, format := SND_PCM_FORMAT_S32_LE, channels := 1, period := 1,
            periods := 3 }
          { pc := PC.at_readi, io_buf := [1, 2, 3, 4], dsp_buf := [0], trace := [] } resps).pc
            = PC.exited c →
        c = 0 ∧ ∃ pre, (main_loop
          { rate := 48000, format := SND_PCM_FORMAT_S32_LE, channels := 1, period := 1,
            periods := 3 }
          { rate := 48000, format := SND_PCM_FORMAT_S32_LE, channels := 1, period := 1,
            periods := 3 }
          { pc := PC.at_readi, io_buf := [1, 2, 3, 4], dsp_buf := [0], trace := [] } resps).trace
            = pre ++ [Event.close_cap, Event.close_play, Event.exit 0]) :=
  C9_fatal_error_closes_and_returns_0
    { rate := 48000, format := SND_PCM_FORMAT_S32_LE, channels := 1, period := 1, periods := 3 }
    { rate := 48000, format := SND_PCM_FORMAT_S32_LE, channels := 1, period := 1, periods := 3 }
    [1, 2, 3, 4] [0] [] (-32) { ret := -5, data := [] } { ret := -77, data := [] }
    (by decide) (by decide) (by decide)

/-! ## Size of the wire buffer against the playback format -/

/-- C10, the code at the failing input: a request for `S16_LE`, a capture device that takes
it and a playback device that accepts only `S32_LE` negotiate `S16_LE` and `S32_LE`. With
one stereo frame per period `io_buf` has 4 bytes while `pack_from_i32` stores
`2 * 4 = 8` bytes: the store of the second sample is outside the buffer, and the first
iteration of the loop runs into it. -/
theorem C10_pack_overruns_io_buf :
    set_hw_sw_params_format (fun _ => true) SND_PCM_FORMAT_S16_LE
        = SetupResult.negotiated SND_PCM_FORMAT_S16_LE
      ∧ set_hw_sw_params_format (fun f => decide (f = SND_PCM_FORMAT_S32_LE))
          SND_PCM_FORMAT_S16_LE = SetupResult.negotiated SND_PCM_FORMAT_S32_LE
      ∧ main_buf_bytes
          { rate := 48000, format := SND_PCM_FORMAT_S16_LE, channels := 2, period := 1,
            periods := 3 } = 4
      ∧ main_samples
          { rate := 48000, format := SND_PCM_FORMAT_S16_LE, channels := 2, period := 1,
            periods := 3 } * bytes_per_sample SND_PCM_FORMAT_S32_LE = 8
      ∧ pack_from_i32 [65536, 131072] [1, 0, 2, 0] SND_PCM_FORMAT_S32_LE 2 = none
      ∧ (main_loop_step
          { rate := 48000, format := SND_PCM_FORMAT_S16_LE, channels := 2, period := 1,
            periods := 3 }
          { rate := 48000, format := SND_PCM_FORMAT_S32_LE, channels := 2, period := 1,
            periods := 3 }
          { pc := PC.at_readi, io_buf := [0, 0, 0, 0], dsp_buf := [0, 0], trace := [] }
          { ret := 1, data := [1, 0, 2, 0] }).pc = PC.undefined := by
  decide

end DuplexWire
